import Mathlib

/-!
Shallow embedding of the core of `threads_server`:
* `src/services/topic.service.js` — topic scoring, ranking, lifecycle sweeps,
  passcode verification, archive/delete actions;
* `src/config/roles.js` — the role → permitted-actions table.

Timestamps are modelled as natural numbers (epoch milliseconds assigned by the
database clock).  The database is modelled as an explicit `Store` threaded
through the stateful operations; a thrown JS exception is modelled as an
`Option Err` result paired with the unchanged store.
-/

namespace ThreadsServer

/-- Milliseconds per day, used by the sweeps for the `setDate(getDate() - n)` arithmetic. -/
def dayMs : Nat := 86400000

/-- A message, as projected by the scoring query (selecting only `id` and `createdAt`). -/
structure Message where
  id : Nat
  createdAt : Nat
  deriving Repr, DecidableEq

/-- A thread with its populated `messages` and `followers` relations. -/
structure Thread where
  id : Nat
  messages : List Message
  followers : List Nat
  deriving Repr, DecidableEq

/-- A user, as needed by the archive sweep (which populates `owner`). -/
structure User where
  id : Nat
  email : Option String
  deriving Repr, DecidableEq

/-- A persisted topic document with its populated `threads` relation. -/
structure Topic where
  id : Nat
  name : String
  slug : String
  owner : User
  private_ : Bool
  passcode : Option Nat
  votingAllowed : Bool
  archivable : Bool
  archived : Bool
  isDeleted : Bool
  isArchiveNotified : Bool
  createdAt : Nat
  threads : List Thread
  deriving Repr, DecidableEq

/-- The persistence state: the `Topic` collection and the `Token` collection
(a token record is identified by its `token` value). -/
structure Store where
  topics : List Topic
  tokens : List String
  deriving Repr, DecidableEq

/-- The POJO built per topic by `topicsWithSortData`. -/
structure ScoredTopic where
  name : String
  slug : String
  id : Nat
  private_ : Bool
  votingAllowed : Bool
  owner : User
  latestMessageCreatedAt : Option Nat
  messageCount : Nat
  threadCount : Nat
  follows : Nat
  defaultSortAverage : Nat
  deriving Repr, DecidableEq

/-! ## Scoring engine (`topicsWithSortData`, lines 29–71) -/

/-- The `threadMsgTimes` accumulation: for each thread with at least one
message, push the `createdAt` of its last message. -/
def threadMsgTimes (threads : List Thread) : List Nat :=
  threads.foldl
    (fun acc th =>
      match th.messages.getLast? with
      | some m => acc ++ [m.createdAt]
      | none => acc)
    []

/-- The `msgCount` accumulation: message lengths are added only inside the
`messages.length > 0` guard, exactly as in the source. -/
def msgCountOf (threads : List Thread) : Nat :=
  threads.foldl
    (fun acc th => if th.messages.length > 0 then acc + th.messages.length else acc) 0

/-- The `followerCount` accumulation (guarded by `followers.length > 0`). -/
def followerCountOf (threads : List Thread) : Nat :=
  threads.foldl
    (fun acc th => if th.followers.length > 0 then acc + th.followers.length else acc) 0

/-- The comparator `(a, b) => a < b ? 1 : a > b ? -1 : 0`, i.e. descending
order: as a boolean "a may come before b" relation this is `b ≤ a`. -/
def descNat (a b : Nat) : Bool := decide (b ≤ a)

/-- `defaultSortAverage` computation: `0` unless both `latestMessageCreatedAt`
and `messageCount` are truthy, otherwise epoch-milliseconds times count. -/
def defaultSortAverage (latest : Option Nat) (messageCount : Nat) : Nat :=
  match latest with
  | some ms => if messageCount ≠ 0 then ms * messageCount else 0
  | none => 0

/-- The per-topic body of the `forEach` inside `topicsWithSortData`. -/
def scoreTopic (t : Topic) : ScoredTopic :=
  let sortedTimes := (threadMsgTimes t.threads).mergeSort descNat
  let latest := sortedTimes.head?
  let msgCount := msgCountOf t.threads
  { name := t.name
    slug := t.slug
    id := t.id
    private_ := t.private_
    votingAllowed := t.votingAllowed
    owner := t.owner
    latestMessageCreatedAt := latest
    messageCount := msgCount
    threadCount := t.threads.length
    follows := followerCountOf t.threads
    defaultSortAverage := defaultSortAverage latest msgCount }

/-- The final comparator `(a, b) => b.defaultSortAverage - a.defaultSortAverage`,
again a descending order; JS `Array.prototype.sort` is a stable sort, modelled
by `List.mergeSort`. -/
def descScore (a b : ScoredTopic) : Bool :=
  decide (b.defaultSortAverage ≤ a.defaultSortAverage)

/-- `topicsWithSortData` on an already-fetched query result. -/
def topicsWithSortData (dbtopics : List Topic) : List ScoredTopic :=
  (dbtopics.map scoreTopic).mergeSort descScore

/-- `userTopics`: the gateway query `{ owner: user, isDeleted: false }` scored
and sorted. -/
def userTopics (user : Nat) (st : Store) : List ScoredTopic :=
  topicsWithSortData (st.topics.filter (fun t => t.owner.id == user && !t.isDeleted))

/-- `allTopics`: the gateway query `{ isDeleted: false }` scored and sorted. -/
def allTopics (st : Store) : List ScoredTopic :=
  topicsWithSortData (st.topics.filter (fun t => !t.isDeleted))

/-! ## Topic lookup, passcode verification, delete/archive actions -/

/-- `Topic.findById` / `Topic.findOne({_id: id})`. -/
def findTopic (id : Nat) (st : Store) : Option Topic :=
  st.topics.find? (fun t => t.id == id)

/-- `verifyPasscode`: strict equality of the candidate against the stored
passcode.  A missing topic makes the JS dereference `topic.passcode` throw;
that is the `none` result. -/
def verifyPasscode (topicId : Nat) (passcode : Option Nat) (st : Store) : Option Bool :=
  (findTopic topicId st).map (fun t => passcode == t.passcode)

/-- Errors thrown by the service: `new Error(msg)` versus
`new ApiError(status, msg)`. -/
inductive Err where
  | generic (msg : String)
  | api (status : Nat) (msg : String)
  deriving Repr, DecidableEq

/-- The `NOT_FOUND` code from `http-status`. -/
def NOT_FOUND : Nat := 404

/-- Persisting `topic.isDeleted = true` for the document with the given id. -/
def setDeleted (id : Nat) (topics : List Topic) : List Topic :=
  topics.map (fun t => if t.id == id then { t with isDeleted := true } else t)

/-- Persisting `topic.archived = true` for the document with the given id. -/
def setArchived (id : Nat) (topics : List Topic) : List Topic :=
  topics.map (fun t => if t.id == id then { t with archived := true } else t)

/-- `deleteTopic`: throw a typed 404 `ApiError` when the topic is absent,
otherwise soft-delete it.  A thrown error leaves the store unchanged. -/
def deleteTopic (id : Nat) (st : Store) : Option Err × Store :=
  match findTopic id st with
  | none => (some (Err.api NOT_FOUND "Topic does not exist"), st)
  | some _ => (none, { st with topics := setDeleted id st.topics })

/-- `archiveTopic`: throw a generic `Error` when the topic is absent, otherwise
set `archived = true`, persist, then delete the token record
(`Token.deleteOne({token})`). -/
def archiveTopic (token : String) (topicId : Nat) (st : Store) : Option Err × Store :=
  match findTopic topicId st with
  | none => (some (Err.generic "Topic not found"), st)
  | some _ =>
    (none, { topics := setArchived topicId st.topics, tokens := st.tokens.erase token })

/-! ## Lifecycle sweeps -/

/-- `createdAt ≤ now - days·day`, computed over the integers exactly as JS
date arithmetic never truncates. -/
def oldEnough (days : Nat) (now : Nat) (t : Topic) : Bool :=
  decide ((t.createdAt : Int) ≤ (now : Int) - days * dayMs)

/-- The `deleteOldTopics` selection predicate:
`{ isDeleted: false, archived: false, createdAt: { $lte: now - 97 days } }`. -/
def deletablePred (now : Nat) (t : Topic) : Bool :=
  !t.isDeleted && !t.archived && oldEnough 97 now t

/-- `deleteOldTopics`: select, mark each selected topic deleted, save; returns
the (mutated) selected topics and the updated store. -/
def deleteOldTopics (now : Nat) (st : Store) : List Topic × Store :=
  ((st.topics.filter (deletablePred now)).map (fun t => { t with isDeleted := true }),
   { st with topics :=
      st.topics.map (fun t => if deletablePred now t then { t with isDeleted := true } else t) })

/-- The `emailUsersToArchive` query predicate:
`{ isArchiveNotified: false, isDeleted: false, archived: false,
archivable: true, createdAt: { $lte: now - 90 days } }`. -/
def archivablePred (now : Nat) (t : Topic) : Bool :=
  !t.isArchiveNotified && !t.isDeleted && !t.archived && t.archivable && oldEnough 90 now t

/-- The post-query filter `topics.filter((t) => t.owner.email)`. -/
def hasOwnerEmail (t : Topic) : Bool :=
  t.owner.email.isSome

/-- Observable side effects of the archive-notify sweep, in order. -/
inductive Event where
  | mintToken (ownerId : Nat)
  | sendEmail (addr : String) (topicId : Nat) (token : String)
  | persistNotified (topicId : Nat)
  deriving Repr, DecidableEq

/-- The side-effect trace of the sweep loop: per topic, mint the archive token,
send the email, then persist `isArchiveNotified = true` — in that order,
sequentially. -/
def archiveSweepTrace (gen : Nat → String) (ts : List Topic) : List Event :=
  ts.flatMap (fun t =>
    [Event.mintToken t.owner.id,
     Event.sendEmail (t.owner.email.getD "") t.id (gen t.owner.id),
     Event.persistNotified t.id])

/-- `emailUsersToArchive`: select, filter on owner email, then process each
topic sequentially.  `gen` models `tokenService.generateArchiveTopicToken`.
Returns the (mutated) processed topics, the side-effect trace, and the
updated store. -/
def emailUsersToArchive (now : Nat) (gen : Nat → String) (st : Store) :
    List Topic × List Event × Store :=
  let processed := (st.topics.filter (archivablePred now)).filter hasOwnerEmail
  (processed.map (fun t => { t with isArchiveNotified := true }),
   archiveSweepTrace gen processed,
   { st with topics :=
      st.topics.map (fun t =>
        if archivablePred now t && hasOwnerEmail t then { t with isArchiveNotified := true }
        else t) })

/-! ## Topic creation -/

/-- The creation request body; `private` may be absent (`none`). -/
structure TopicBody where
  name : String
  votingAllowed : Bool
  private_ : Option Bool
  archivable : Bool
  deriving Repr, DecidableEq

/-- JS truthiness of an optional boolean (`undefined` is falsy). -/
def truthy : Option Bool → Bool
  | some b => b
  | none => false

/-- `createTopic`: a passcode is drawn (the `rand` argument models the value
returned by `crypto.randomInt(1000000, 9999999)`) exactly when the body is
private; `newId`, `slug` and `now` model the database-assigned fields. -/
def createTopic (body : TopicBody) (rand : Nat) (owner : User) (now newId : Nat)
    (slug : String) : Topic :=
  let passcode : Option Nat := if truthy body.private_ then some rand else none
  { id := newId
    name := body.name
    slug := slug
    owner := owner
    private_ := truthy body.private_
    passcode := passcode
    votingAllowed := body.votingAllowed
    archivable := body.archivable
    archived := false
    isDeleted := false
    isArchiveNotified := false
    createdAt := now
    threads := [] }

/-! ## Access gate (`src/config/roles.js`) -/

/-- The `allRoles` table (first version of `roles.js`). -/
def allRoles : List (String × List String) :=
  [("user",
    ["createMessage", "userTopics", "createTopic", "createThread", "userThreads",
     "ping", "followThread", "getThread", "publicTopics", "publicThreads"]),
   ("admin", ["getUsers", "manageUsers"])]

/-- The `allRoles` table (second version of `roles.js`). -/
def allRolesV2 : List (String × List String) :=
  [("user",
    ["createMessage", "userTopics", "createTopic", "deleteTopic", "updateTopic",
     "createThread", "userThreads", "ping", "followThread", "getThread",
     "allTopics", "publicThreads", "topicThreads", "deleteThread", "upVote",
     "downVote", "managePseudonym", "manageAccount"]),
   ("admin", ["getUsers", "manageUsers"])]

/-- `roleRights = new Map(Object.entries(allRoles))`, as an association list. -/
def roleRights : List (String × List String) := allRoles

/-- Second-version `roleRights`. -/
def roleRightsV2 : List (String × List String) := allRolesV2

/-- Modelled from the spec: the `isAllowed(role, action)` check of the request layer
is not under `src/`; per the spec it returns membership of `action` in the
rights set `roleRights` maps `role` to, and an unknown role has no actions. -/
def isAllowed (rights : List (String × List String)) (role action : String) : Bool :=
  match rights.lookup role with
  | some actions => actions.contains action
  | none => false

/-! ## Concrete sample data used by witnesses -/

/-- A sample private topic. -/
def wTopic : Topic :=
  { id := 1, name := "t", slug := "t", owner := { id := 7, email := some "a@b.c" }
    private_ := true, passcode := some 1234567, votingAllowed := false, archivable := true
    archived := false, isDeleted := false, isArchiveNotified := false, createdAt := 0
    threads := [] }

/-- A sample store holding `wTopic` and one token record. -/
def wStore : Store := { topics := [wTopic], tokens := ["tok"] }

/-! ## Helper lemmas -/

theorem mem_setArchived {topics : List Topic} {id : Nat} {u : Topic}
    (hu : u ∈ setArchived id topics) (hid : u.id = id) : u.archived = true := by
  unfold setArchived at hu
  obtain ⟨v, hv, he⟩ := List.mem_map.mp hu
  by_cases hvi : (v.id == id) = true
  · rw [if_pos hvi] at he
    subst he
    rfl
  · rw [if_neg hvi] at he
    subst he
    exact absurd hid (by simpa using hvi)

theorem mem_setDeleted {topics : List Topic} {id : Nat} {u : Topic}
    (hu : u ∈ setDeleted id topics) (hid : u.id = id) : u.isDeleted = true := by
  unfold setDeleted at hu
  obtain ⟨v, hv, he⟩ := List.mem_map.mp hu
  by_cases hvi : (v.id == id) = true
  · rw [if_pos hvi] at he
    subst he
    rfl
  · rw [if_neg hvi] at he
    subst he
    exact absurd hid (by simpa using hvi)

/-! ## Claim theorems -/

/-- C3: `verify(topicId, candidate)` returns true iff the candidate equals the
exact stored passcode of the topic with that id; any other candidate,
including null, returns false. -/
theorem verifyPasscode_spec (st : Store) (topicId : Nat) (cand : Option Nat) (t : Topic)
    (h : findTopic topicId st = some t) :
    (verifyPasscode topicId cand st = some true ↔ cand = t.passcode)
    ∧ (cand ≠ t.passcode → verifyPasscode topicId cand st = some false) := by
  unfold verifyPasscode
  rw [h]
  constructor
  · simp [beq_iff_eq]
  · intro hne
    simp [beq_iff_eq, hne]

theorem verifyPasscode_spec_witness :
    verifyPasscode 1 (some 1234567) wStore = some true
    ∧ verifyPasscode 1 none wStore = some false := by
  refine ⟨(verifyPasscode_spec wStore 1 (some 1234567) wTopic rfl).1.mpr rfl, ?_⟩
  exact (verifyPasscode_spec wStore 1 none wTopic rfl).2 (by decide)

/-- C6: on a missing target, `archiveTopic` fails with a generic error and
`deleteTopic` with a typed 404 not-found error, neither modifying any state
(the token is not deleted); on an existing target `deleteTopic` persists
`isDeleted = true` and `archiveTopic` persists `archived = true` and deletes
the token record. -/
theorem archive_delete_notFound (st : Store) (id : Nat) (tok : String) :
    (findTopic id st = none →
      archiveTopic tok id st = (some (Err.generic "Topic not found"), st)
      ∧ deleteTopic id st = (some (Err.api NOT_FOUND "Topic does not exist"), st))
    ∧ (∀ t, findTopic id st = some t →
      deleteTopic id st = (none, { st with topics := setDeleted id st.topics })
      ∧ archiveTopic tok id st =
          (none, { topics := setArchived id st.topics, tokens := st.tokens.erase tok })
      ∧ (∀ u ∈ (archiveTopic tok id st).2.topics, u.id = id → u.archived = true)
      ∧ (∀ u ∈ (deleteTopic id st).2.topics, u.id = id → u.isDeleted = true)) := by
  constructor
  · intro h
    exact ⟨by simp [archiveTopic, h], by simp [deleteTopic, h]⟩
  · intro t h
    refine ⟨by simp [deleteTopic, h], by simp [archiveTopic, h], ?_, ?_⟩
    · intro u hu hid
      have he : (archiveTopic tok id st).2.topics = setArchived id st.topics := by
        simp [archiveTopic, h]
      rw [he] at hu
      exact mem_setArchived hu hid
    · intro u hu hid
      have he : (deleteTopic id st).2.topics = setDeleted id st.topics := by
        simp [deleteTopic, h]
      rw [he] at hu
      exact mem_setDeleted hu hid

theorem archive_delete_notFound_witness :
    archiveTopic "tok" 2 wStore = (some (Err.generic "Topic not found"), wStore)
    ∧ deleteTopic 1 wStore = (none, { wStore with topics := setDeleted 1 wStore.topics }) := by
  refine ⟨((archive_delete_notFound wStore 2 "tok").1 rfl).1, ?_⟩
  exact ((archive_delete_notFound wStore 1 "tok").2 wTopic rfl).1

/-- C7: `defaultSortAverage` is monotone non-decreasing in `messageCount` at
fixed non-null `latestMessageCreatedAt`, and non-decreasing in the recency of
`latestMessageCreatedAt` at fixed positive `messageCount`. -/
theorem defaultSortAverage_monotone :
    (∀ ms c1 c2, c1 ≤ c2 →
      defaultSortAverage (some ms) c1 ≤ defaultSortAverage (some ms) c2)
    ∧ (∀ t1 t2 c, 0 < c → t1 ≤ t2 →
      defaultSortAverage (some t1) c ≤ defaultSortAverage (some t2) c) := by
  constructor
  · intro ms c1 c2 h
    by_cases h2 : c2 = 0
    · have h1 : c1 = 0 := by omega
      simp [defaultSortAverage, h1, h2]
    · by_cases h1 : c1 = 0
      · simp [defaultSortAverage, h1, h2]
      · simp only [defaultSortAverage, if_pos h1, if_pos h2, ne_eq, h1, h2,
          not_false_iff, if_true]
        exact Nat.mul_le_mul (Nat.le_refl ms) h
  · intro t1 t2 c hc h
    have hne : c ≠ 0 := by omega
    simp only [defaultSortAverage, ne_eq, hne, not_false_iff, if_true]
    exact Nat.mul_le_mul h (Nat.le_refl c)

theorem defaultSortAverage_monotone_witness :
    defaultSortAverage (some 500) 2 ≤ defaultSortAverage (some 500) 5
    ∧ defaultSortAverage (some 100) 3 ≤ defaultSortAverage (some 500) 3 :=
  ⟨defaultSortAverage_monotone.1 500 2 5 (by decide),
   defaultSortAverage_monotone.2 100 500 3 (by decide) (by decide)⟩

/-- C8: a topic built by `createTopic` has a non-null passcode iff it is
private; with `private = true` the passcode is the random draw from
`[1000000, 9999999)`, with `private` false or absent it is null. -/
theorem createTopic_passcode_invariant (body : TopicBody) (rand : Nat) (owner : User)
    (now newId : Nat) (slug : String)
    (hr : truthy body.private_ = true → 1000000 ≤ rand ∧ rand < 9999999) :
    ((createTopic body rand owner now newId slug).passcode.isSome = true
      ↔ (createTopic body rand owner now newId slug).private_ = true)
    ∧ (body.private_ = some true →
        (createTopic body rand owner now newId slug).passcode = some rand
        ∧ 1000000 ≤ rand ∧ rand < 9999999)
    ∧ (body.private_ = some false →
        (createTopic body rand owner now newId slug).passcode = none)
    ∧ (body.private_ = none →
        (createTopic body rand owner now newId slug).passcode = none) := by
  refine ⟨?_, ?_, ?_, ?_⟩
  · by_cases hp : truthy body.private_ = true <;> simp [createTopic, hp]
  · intro h
    have hp : truthy body.private_ = true := by simp [truthy, h]
    exact ⟨by simp [createTopic, hp], hr hp⟩
  · intro h
    simp [createTopic, truthy, h]
  · intro h
    simp [createTopic, truthy, h]

theorem createTopic_passcode_invariant_witness :
    (createTopic { name := "n", votingAllowed := true, private_ := some true, archivable := true }
      1234567 { id := 7, email := none } 0 3 "n").passcode = some 1234567
    ∧ (createTopic { name := "n", votingAllowed := true, private_ := none, archivable := true }
      1234567 { id := 7, email := none } 0 3 "n").passcode = none := by
  refine ⟨((createTopic_passcode_invariant _ 1234567 _ 0 3 "n"
    (fun _ => by decide)).2.1 rfl).1, ?_⟩
  exact (createTopic_passcode_invariant
    { name := "n", votingAllowed := true, private_ := none, archivable := true }
    1234567 { id := 7, email := none } 0 3 "n" (fun h => by cases h)).2.2.2 rfl

/-- C9: `isAllowed(role, action)` is true iff the action belongs to the rights
set mapped to the role; unknown roles have no actions; the three sample checks
hold for both versions of the role table. -/
theorem isAllowed_spec :
    (∀ rights role action,
      isAllowed rights role action = true ↔ action ∈ ((rights.lookup role).getD []))
    ∧ (∀ rights role action,
      List.lookup role rights = none → isAllowed rights role action = false)
    ∧ isAllowed roleRights "user" "manageUsers" = false
    ∧ isAllowed roleRights "admin" "manageUsers" = true
    ∧ isAllowed roleRights "guest" "ping" = false
    ∧ isAllowed roleRightsV2 "user" "manageUsers" = false
    ∧ isAllowed roleRightsV2 "admin" "manageUsers" = true
    ∧ isAllowed roleRightsV2 "guest" "ping" = false := by
  refine ⟨?_, ?_, by decide, by decide, by decide, by decide, by decide, by decide⟩
  · intro rights role action
    unfold isAllowed
    cases h : rights.lookup role with
    | none => simp
    | some acts => simp
  · intro rights role action h
    simp [isAllowed, h]

theorem isAllowed_spec_witness :
    List.lookup "guest" roleRights = none ∧ isAllowed roleRights "guest" "ping" = false :=
  ⟨by decide, isAllowed_spec.2.1 roleRights "guest" "ping" (by decide)⟩

/-- C10: `archiveTopic` never validates the token against the topic: for an
existing topic the resulting topic collection (the topic archived) and the
error outcome are identical for any two tokens, and the token argument only
selects which token record is erased. -/
theorem archiveTopic_token_irrelevant (st : Store) (topicId : Nat) (t1 t2 : String)
    (tp : Topic) (h : findTopic topicId st = some tp) :
    (archiveTopic t1 topicId st).2.topics = (archiveTopic t2 topicId st).2.topics
    ∧ (archiveTopic t1 topicId st).1 = (archiveTopic t2 topicId st).1
    ∧ (∀ u ∈ (archiveTopic t1 topicId st).2.topics, u.id = topicId → u.archived = true)
    ∧ (archiveTopic t1 topicId st).2.tokens = st.tokens.erase t1 := by
  refine ⟨by simp [archiveTopic, h], by simp [archiveTopic, h], ?_, by simp [archiveTopic, h]⟩
  intro u hu hid
  have he : (archiveTopic t1 topicId st).2.topics = setArchived topicId st.topics := by
    simp [archiveTopic, h]
  rw [he] at hu
  exact mem_setArchived hu hid

theorem archiveTopic_token_irrelevant_witness :
    (archiveTopic "tokA" 1 wStore).2.topics = (archiveTopic "tokB" 1 wStore).2.topics
    ∧ (archiveTopic "tokA" 1 wStore).2.tokens = wStore.tokens.erase "tokA" := by
  have h := archiveTopic_token_irrelevant wStore 1 "tokA" "tokB" wTopic rfl
  exact ⟨h.1, h.2.2.2⟩

/-- C4: the soft-delete sweep selects exactly the topics with
`isDeleted = false`, `archived = false` and `createdAt ≤ now - 97 days`, marks
each selected topic deleted and persists it; a topic created exactly 98 days
ago qualifies, one created 96 days ago does not. -/
theorem deleteOldTopics_spec (now : Nat) (st : Store) :
    ((deleteOldTopics now st).1 =
      (st.topics.filter (fun t =>
        !t.isDeleted && !t.archived
          && decide ((t.createdAt : Int) ≤ (now : Int) - 97 * dayMs))).map
        (fun t => { t with isDeleted := true }))
    ∧ (∀ t ∈ (deleteOldTopics now st).1, t.isDeleted = true)
    ∧ (∀ t ∈ st.topics, deletablePred now t = true →
        { t with isDeleted := true } ∈ (deleteOldTopics now st).2.topics)
    ∧ (∀ t ∈ st.topics, deletablePred now t = false →
        t ∈ (deleteOldTopics now st).2.topics)
    ∧ (∀ t : Topic, t.isDeleted = false → t.archived = false →
        (t.createdAt : Int) = (now : Int) - 98 * dayMs → deletablePred now t = true)
    ∧ (∀ t : Topic, (t.createdAt : Int) = (now : Int) - 96 * dayMs →
        deletablePred now t = false) := by
  refine ⟨rfl, ?_, ?_, ?_, ?_, ?_⟩
  · intro t ht
    obtain ⟨v, hv, he⟩ := List.mem_map.mp ht
    subst he
    rfl
  · intro t ht hp
    exact List.mem_map.mpr ⟨t, ht, by rw [if_pos hp]⟩
  · intro t ht hp
    exact List.mem_map.mpr ⟨t, ht, by rw [hp]; simp⟩
  · intro t h1 h2 h3
    have hle : (t.createdAt : Int) ≤ (now : Int) - 97 * dayMs := by
      rw [h3]
      simp only [dayMs]
      omega
    simp [deletablePred, oldEnough, h1, h2, hle]
  · intro t h
    have hgt : ¬ ((t.createdAt : Int) ≤ (now : Int) - 97 * dayMs) := by
      rw [h]
      simp only [dayMs]
      omega
    simp [deletablePred, oldEnough, hgt]

/-- The time used by witness instances: 98 days past the epoch. -/
def wNow : Nat := 98 * dayMs

/-- A topic created exactly 98 days before `wNow`. -/
def wTopic98 : Topic := { wTopic with id := 10, createdAt := 0 }

/-- A topic created exactly 96 days before `wNow`. -/
def wTopic96 : Topic := { wTopic with id := 11, createdAt := 2 * dayMs }

theorem deleteOldTopics_spec_witness :
    deletablePred wNow wTopic98 = true ∧ deletablePred wNow wTopic96 = false := by
  constructor
  · exact (deleteOldTopics_spec wNow { topics := [], tokens := [] }).2.2.2.2.1
      wTopic98 rfl rfl (by decide)
  · exact (deleteOldTopics_spec wNow { topics := [], tokens := [] }).2.2.2.2.2
      wTopic96 (by decide)

/-- `archiveSweepTrace` unfolds to a three-event block per topic. -/
theorem archiveSweepTrace_cons (gen : Nat → String) (x : Topic) (xs : List Topic) :
    archiveSweepTrace gen (x :: xs) =
      Event.mintToken x.owner.id
        :: Event.sendEmail (x.owner.email.getD "") x.id (gen x.owner.id)
        :: Event.persistNotified x.id
        :: archiveSweepTrace gen xs := by
  simp [archiveSweepTrace]

theorem getElem?_cons_three {α : Type} (a b c : α) (l : List α) (n : Nat) :
    (a :: b :: c :: l)[n + 3]? = l[n]? := by
  rw [show a :: b :: c :: l = [a, b, c] ++ l from rfl]
  rw [List.getElem?_append_right (by simp)]
  simp

/-- In the sweep trace, the mint, send and persist events of each processed topic
appear in that strict order. -/
theorem archiveSweepTrace_order (gen : Nat → String) (ts : List Topic) (t : Topic)
    (ht : t ∈ ts) :
    ∃ (i j k : Nat), i < j ∧ j < k
      ∧ (archiveSweepTrace gen ts)[i]? = some (Event.mintToken t.owner.id)
      ∧ (archiveSweepTrace gen ts)[j]? =
          some (Event.sendEmail (t.owner.email.getD "") t.id (gen t.owner.id))
      ∧ (archiveSweepTrace gen ts)[k]? = some (Event.persistNotified t.id) := by
  induction ts with
  | nil => cases ht
  | cons x xs ih =>
    rw [archiveSweepTrace_cons]
    rcases List.mem_cons.mp ht with rfl | hmem
    · exact ⟨0, 1, 2, by omega, by omega, rfl, rfl, by simp⟩
    · obtain ⟨i, j, k, hij, hjk, hi, hj, hk⟩ := ih hmem
      exact ⟨i + 3, j + 3, k + 3, by omega, by omega,
        by rw [getElem?_cons_three]; exact hi,
        by rw [getElem?_cons_three]; exact hj,
        by rw [getElem?_cons_three]; exact hk⟩

/-- C5: the archive-notify sweep processes exactly the topics satisfying the
five-way selection predicate whose owner has an email; a non-archivable topic
is never selected and an owner without email is skipped; and for each
processed topic, token minting and email dispatch occur strictly before the
`isArchiveNotified` flag is persisted. -/
theorem emailUsersToArchive_spec (now : Nat) (gen : Nat → String) (st : Store) :
    ((emailUsersToArchive now gen st).1 =
      ((st.topics.filter (archivablePred now)).filter hasOwnerEmail).map
        (fun t => { t with isArchiveNotified := true }))
    ∧ (∀ t ∈ (emailUsersToArchive now gen st).1, t.isArchiveNotified = true)
    ∧ (∀ t : Topic, archivablePred now t = true ↔
        (t.isArchiveNotified = false ∧ t.isDeleted = false ∧ t.archived = false
          ∧ t.archivable = true ∧ (t.createdAt : Int) ≤ (now : Int) - 90 * dayMs))
    ∧ (∀ t : Topic, t.archivable = false → archivablePred now t = false)
    ∧ (∀ t : Topic, t.owner.email = none →
        t ∉ (st.topics.filter (archivablePred now)).filter hasOwnerEmail)
    ∧ (∀ t ∈ st.topics, archivablePred now t = true → hasOwnerEmail t = true →
        { t with isArchiveNotified := true } ∈ (emailUsersToArchive now gen st).2.2.topics)
    ∧ (∀ t ∈ (st.topics.filter (archivablePred now)).filter hasOwnerEmail,
        ∃ (i j k : Nat), i < j ∧ j < k
          ∧ (emailUsersToArchive now gen st).2.1[i]? = some (Event.mintToken t.owner.id)
          ∧ (emailUsersToArchive now gen st).2.1[j]? =
              some (Event.sendEmail (t.owner.email.getD "") t.id (gen t.owner.id))
          ∧ (emailUsersToArchive now gen st).2.1[k]? =
              some (Event.persistNotified t.id)) := by
  refine ⟨rfl, ?_, ?_, ?_, ?_, ?_, ?_⟩
  · intro t ht
    obtain ⟨v, hv, he⟩ := List.mem_map.mp ht
    subst he
    rfl
  · intro t
    simp only [archivablePred, oldEnough, Bool.and_eq_true, Bool.not_eq_true',
      decide_eq_true_eq]
    tauto
  · intro t h
    simp [archivablePred, h]
  · intro t h hmem
    have := (List.mem_filter.mp hmem).2
    simp [hasOwnerEmail, h] at this
  · intro t ht hp he
    exact List.mem_map.mpr ⟨t, ht, by rw [if_pos (by simp [hp, he])]⟩
  · intro t hmem
    exact archiveSweepTrace_order gen _ t hmem

/-- An old, archivable topic whose owner has an email. -/
def wArchTopic : Topic :=
  { wTopic with
    id := 2
    private_ := false
    passcode := none
    createdAt := 0 }

/-- A store holding just `wArchTopic`. -/
def wArchStore : Store := { topics := [wArchTopic], tokens := [] }

theorem emailUsersToArchive_spec_witness :
    archivablePred wNow { wArchTopic with archivable := false } = false
    ∧ ∃ (i j k : Nat), i < j ∧ j < k
      ∧ (emailUsersToArchive wNow (fun _ => "tk") wArchStore).2.1[i]? =
          some (Event.mintToken 7)
      ∧ (emailUsersToArchive wNow (fun _ => "tk") wArchStore).2.1[j]? =
          some (Event.sendEmail "a@b.c" 2 "tk")
      ∧ (emailUsersToArchive wNow (fun _ => "tk") wArchStore).2.1[k]? =
          some (Event.persistNotified 2) := by
  constructor
  · exact (emailUsersToArchive_spec wNow (fun _ => "tk") wArchStore).2.2.2.1 _ rfl
  · exact (emailUsersToArchive_spec wNow (fun _ => "tk") wArchStore).2.2.2.2.2.2
      wArchTopic (by decide)

/-! ## Scoring lemmas -/

theorem msgCountOf_eq (ts : List Thread) :
    msgCountOf ts = (ts.map (fun th => th.messages.length)).sum := by
  suffices h : ∀ (acc : Nat),
      ts.foldl
        (fun acc th => if th.messages.length > 0 then acc + th.messages.length else acc) acc
      = acc + (ts.map (fun th => th.messages.length)).sum by
    simpa [msgCountOf] using h 0
  induction ts with
  | nil =>
    intro acc
    simp
  | cons x xs ih =>
    intro acc
    simp only [List.foldl_cons, List.map_cons, List.sum_cons]
    by_cases h : x.messages.length > 0
    · rw [if_pos h, ih]
      omega
    · rw [if_neg h, ih]
      omega

theorem followerCountOf_eq (ts : List Thread) :
    followerCountOf ts = (ts.map (fun th => th.followers.length)).sum := by
  suffices h : ∀ (acc : Nat),
      ts.foldl
        (fun acc th => if th.followers.length > 0 then acc + th.followers.length else acc) acc
      = acc + (ts.map (fun th => th.followers.length)).sum by
    simpa [followerCountOf] using h 0
  induction ts with
  | nil =>
    intro acc
    simp
  | cons x xs ih =>
    intro acc
    simp only [List.foldl_cons, List.map_cons, List.sum_cons]
    by_cases h : x.followers.length > 0
    · rw [if_pos h, ih]
      omega
    · rw [if_neg h, ih]
      omega

theorem threadMsgTimes_eq (ts : List Thread) :
    threadMsgTimes ts =
      (ts.filterMap (fun th => th.messages.getLast?)).map (fun m => m.createdAt) := by
  suffices h : ∀ (acc : List Nat),
      ts.foldl
        (fun acc th =>
          match th.messages.getLast? with
          | some m => acc ++ [m.createdAt]
          | none => acc) acc
      = acc ++ (ts.filterMap (fun th => th.messages.getLast?)).map (fun m => m.createdAt) by
    simpa [threadMsgTimes] using h []
  induction ts with
  | nil =>
    intro acc
    simp
  | cons x xs ih =>
    intro acc
    cases hx : x.messages.getLast? with
    | none =>
      simp only [List.foldl_cons, hx, List.filterMap_cons, ih]
    | some m =>
      simp only [List.foldl_cons, hx, List.filterMap_cons, ih, List.map_cons]
      simp

theorem descNat_trans : ∀ (a b c : Nat), descNat a b → descNat b c → descNat a c := by
  intro a b c
  simp only [descNat, decide_eq_true_eq]
  omega

theorem descNat_total : ∀ (a b : Nat), (descNat a b || descNat b a) = true := by
  intro a b
  simp only [descNat, Bool.or_eq_true, decide_eq_true_eq]
  omega

/-- Sorting descending and taking the head picks out the maximum. -/
theorem head?_mergeSort_descNat (l : List Nat) :
    (l.mergeSort descNat).head? = l.max? := by
  cases h : l.mergeSort descNat with
  | nil =>
    have hp := List.mergeSort_perm l descNat
    rw [h] at hp
    rw [List.Perm.eq_nil hp.symm]
    rfl
  | cons a rest =>
    have hp := List.mergeSort_perm l descNat
    rw [h] at hp
    have hs := List.sorted_mergeSort descNat_trans descNat_total l
    rw [h] at hs
    have hmem : a ∈ l := hp.mem_iff.mp (List.mem_cons_self a rest)
    have hbound : ∀ b ∈ l, b ≤ a := by
      intro b hb
      rcases List.mem_cons.mp (hp.mem_iff.mpr hb) with rfl | hbr
      · exact Nat.le_refl b
      · have := (List.pairwise_cons.mp hs).1 b hbr
        simpa [descNat] using this
    rw [List.head?_cons]
    symm
    rw [List.max?_eq_some_iff (fun a => Nat.le_refl a) (fun a b => by omega)
      (fun a b c => by omega)]
    exact ⟨hmem, hbound⟩

/-- C1: the scored summary of a topic snapshot has `threadCount` the number of
threads, `messageCount` and `follows` the sums over threads, the latest of the
per-thread last-message timestamps (or null), and `defaultSortAverage` zero
unless a latest message exists and the count is positive, in which case it is
epoch-milliseconds times the count; a topic with zero threads yields all-zero
summary fields. -/
theorem scoring_summary (t : Topic) :
    (scoreTopic t).threadCount = t.threads.length
    ∧ (scoreTopic t).messageCount = (t.threads.map (fun th => th.messages.length)).sum
    ∧ (scoreTopic t).follows = (t.threads.map (fun th => th.followers.length)).sum
    ∧ (scoreTopic t).latestMessageCreatedAt =
        ((t.threads.filterMap (fun th => th.messages.getLast?)).map
          (fun m => m.createdAt)).max?
    ∧ ((scoreTopic t).latestMessageCreatedAt = none ∨ (scoreTopic t).messageCount = 0 →
        (scoreTopic t).defaultSortAverage = 0)
    ∧ (∀ ms, (scoreTopic t).latestMessageCreatedAt = some ms →
        (scoreTopic t).messageCount ≠ 0 →
        (scoreTopic t).defaultSortAverage = ms * (scoreTopic t).messageCount)
    ∧ (t.threads = [] →
        (scoreTopic t).messageCount = 0 ∧ (scoreTopic t).threadCount = 0
        ∧ (scoreTopic t).follows = 0 ∧ (scoreTopic t).latestMessageCreatedAt = none
        ∧ (scoreTopic t).defaultSortAverage = 0) := by
  have hdsa : (scoreTopic t).defaultSortAverage
      = defaultSortAverage (scoreTopic t).latestMessageCreatedAt (scoreTopic t).messageCount :=
    rfl
  refine ⟨rfl, msgCountOf_eq t.threads, followerCountOf_eq t.threads, ?_, ?_, ?_, ?_⟩
  · show ((threadMsgTimes t.threads).mergeSort descNat).head? = _
    rw [head?_mergeSort_descNat, threadMsgTimes_eq]
  · intro h
    rw [hdsa]
    rcases h with h | h
    · rw [h]
      rfl
    · rw [h]
      cases (scoreTopic t).latestMessageCreatedAt with
      | none => rfl
      | some ms => simp [defaultSortAverage]
  · intro ms hms hc
    rw [hdsa, hms]
    simp [defaultSortAverage, hc]
  · intro he
    refine ⟨?_, ?_, ?_, ?_, ?_⟩
    · show msgCountOf t.threads = 0
      rw [he]
      rfl
    · show t.threads.length = 0
      rw [he]
      rfl
    · show followerCountOf t.threads = 0
      rw [he]
      rfl
    · show ((threadMsgTimes t.threads).mergeSort descNat).head? = none
      rw [head?_mergeSort_descNat, he]
      rfl
    · show defaultSortAverage ((threadMsgTimes t.threads).mergeSort descNat).head?
          (msgCountOf t.threads) = 0
      rw [head?_mergeSort_descNat, he]
      rfl

/-- Thread with messages at times 100 and 300. -/
def wThread1 : Thread :=
  { id := 1
    messages := [{ id := 1, createdAt := 100 }, { id := 2, createdAt := 300 }]
    followers := [] }

/-- Thread with messages at times 50, 200, 500 and three followers. -/
def wThread2 : Thread :=
  { id := 2
    messages := [{ id := 3, createdAt := 50 }, { id := 4, createdAt := 200 },
      { id := 5, createdAt := 500 }]
    followers := [21, 22, 23] }

/-- The two-thread sample topic of the worked scenario in the spec. -/
def wTopicA : Topic := { wTopic with id := 20, threads := [wThread1, wThread2] }

/-- A topic with zero threads. -/
def wTopicEmpty : Topic := { wTopic with id := 21, threads := [] }

theorem scoring_summary_witness :
    (scoreTopic wTopicA).defaultSortAverage = 500 * (scoreTopic wTopicA).messageCount
    ∧ (scoreTopic wTopicEmpty).messageCount = 0
    ∧ (scoreTopic wTopicEmpty).defaultSortAverage = 0 := by
  have hms : (scoreTopic wTopicA).latestMessageCreatedAt = some 500 := by
    rw [(scoring_summary wTopicA).2.2.2.1]
    decide
  have hcount : (scoreTopic wTopicA).messageCount ≠ 0 := by
    rw [(scoring_summary wTopicA).2.1]
    decide
  refine ⟨(scoring_summary wTopicA).2.2.2.2.2.1 500 hms hcount, ?_, ?_⟩
  · exact ((scoring_summary wTopicEmpty).2.2.2.2.2.2 rfl).1
  · exact ((scoring_summary wTopicEmpty).2.2.2.2.2.2 rfl).2.2.2.2

/-! ## Ranking lemmas -/

theorem descScore_trans :
    ∀ (a b c : ScoredTopic), descScore a b → descScore b c → descScore a c := by
  intro a b c
  simp only [descScore, decide_eq_true_eq]
  omega

theorem descScore_total : ∀ (a b : ScoredTopic), (descScore a b || descScore b a) = true := by
  intro a b
  simp only [descScore, Bool.or_eq_true, decide_eq_true_eq]
  omega

theorem topicsWithSortData_sorted (ts : List Topic) :
    (topicsWithSortData ts).Pairwise
      (fun a b => b.defaultSortAverage ≤ a.defaultSortAverage) := by
  have h := List.sorted_mergeSort descScore_trans descScore_total (ts.map scoreTopic)
  exact h.imp (fun hab => by simpa [descScore] using hab)

theorem topicsWithSortData_perm (ts : List Topic) :
    (topicsWithSortData ts).Perm (ts.map scoreTopic) :=
  List.mergeSort_perm (ts.map scoreTopic) descScore

theorem topicsWithSortData_stable (ts : List Topic) (a b : ScoredTopic)
    (hsub : [a, b].Sublist (ts.map scoreTopic))
    (heq : a.defaultSortAverage = b.defaultSortAverage) :
    [a, b].Sublist (topicsWithSortData ts) :=
  List.sublist_mergeSort descScore_trans descScore_total
    (List.pairwise_pair.mpr (by simp [descScore, heq])) hsub

/-- C2: `userTopics` and `allTopics` return the scored topics of their gateway
queries sorted non-increasingly by `defaultSortAverage`, and any two topics
with equal score keep the relative order in which the gateway returned them
(`List.mergeSort` models the stable JS `Array.prototype.sort`). -/
theorem ranking_sorted_stable (st : Store) (user : Nat) :
    (userTopics user st).Pairwise
      (fun a b => b.defaultSortAverage ≤ a.defaultSortAverage)
    ∧ (allTopics st).Pairwise (fun a b => b.defaultSortAverage ≤ a.defaultSortAverage)
    ∧ (userTopics user st).Perm
        ((st.topics.filter (fun t => t.owner.id == user && !t.isDeleted)).map scoreTopic)
    ∧ (allTopics st).Perm ((st.topics.filter (fun t => !t.isDeleted)).map scoreTopic)
    ∧ (∀ a b, [a, b].Sublist
          ((st.topics.filter (fun t => t.owner.id == user && !t.isDeleted)).map scoreTopic) →
        a.defaultSortAverage = b.defaultSortAverage → [a, b].Sublist (userTopics user st))
    ∧ (∀ a b, [a, b].Sublist ((st.topics.filter (fun t => !t.isDeleted)).map scoreTopic) →
        a.defaultSortAverage = b.defaultSortAverage → [a, b].Sublist (allTopics st)) := by
  refine ⟨topicsWithSortData_sorted _, topicsWithSortData_sorted _,
    topicsWithSortData_perm _, topicsWithSortData_perm _, ?_, ?_⟩
  · intro a b hsub heq
    exact topicsWithSortData_stable _ a b hsub heq
  · intro a b hsub heq
    exact topicsWithSortData_stable _ a b hsub heq

/-- A second zero-thread topic, tied with `wTopicEmpty` at score 0. -/
def wTopicEmptyB : Topic := { wTopic with id := 22, threads := [] }

/-- A store holding the two tied topics, both owned by user 7. -/
def wTieStore : Store := { topics := [wTopicEmpty, wTopicEmptyB], tokens := [] }

theorem ranking_sorted_stable_witness :
    [scoreTopic wTopicEmpty, scoreTopic wTopicEmptyB].Sublist (userTopics 7 wTieStore) := by
  have hzero : ∀ (tp : Topic), tp.threads = [] → (scoreTopic tp).defaultSortAverage = 0 := by
    intro tp he
    show defaultSortAverage ((threadMsgTimes tp.threads).mergeSort descNat).head?
      (msgCountOf tp.threads) = 0
    rw [head?_mergeSort_descNat, he]
    rfl
  have heq : (scoreTopic wTopicEmpty).defaultSortAverage
      = (scoreTopic wTopicEmptyB).defaultSortAverage :=
    (hzero wTopicEmpty rfl).trans (hzero wTopicEmptyB rfl).symm
  apply (ranking_sorted_stable wTieStore 7).2.2.2.2.1 (scoreTopic wTopicEmpty)
    (scoreTopic wTopicEmptyB) ?_ heq
  exact List.Sublist.refl _

end ThreadsServer
